import Mathlib

/-!
Shallow embedding of `src/features/previewManager.ts` from vscode-svg-previewer.

The `PreviewManager` class tracks open SVG preview panels, routes host events
(document changed, active editor changed, panel disposal, panel view-state
change) to them, and maintains a single optional active-preview pointer plus a
boolean focus context flag published to the host under the key
`svgPreviewFocus`.

Modelling choices:
- The mutable fields `_previews` and `_activePreview`, together with the last
  value written to the focus context key, form `ManagerState`; each method of
  the class becomes a function from state (plus the host inputs it reads) to a
  new state and a list of observable `Effect`s (calls into collaborators).
- JavaScript object identity of `Preview` instances is represented by the
  `id : Nat` field; every preview object the host or manager creates carries a
  distinct id. `Array.prototype.indexOf` / `splice` are embedded faithfully,
  including the behaviour of `splice (-1) 1` (the indexOf-miss case), which
  removes the LAST element of a non-empty array.
- Collaborators whose code is outside `src/` (`isSvgUri` from `src/utils.ts`,
  `Preview.create` from `src/features/previewPanel.ts`, the telemetry event
  name from `src/telemetry.ts`) are modelled from the spec and are marked as
  such in their doc comments.
-/

/-- Host URI value: `raw` is the `toString()` form, `fsPath` the filesystem
path used by `getPreviewOf`, and `isSvg` records whether the previewable
(SVG) predicate holds for it (see `isSvgUri`). -/
structure Uri where
  raw : String
  fsPath : String
  isSvg : Bool
deriving DecidableEq, Repr

/-- Modelled from the spec: the function `isSvgUri` lives in `src/utils.ts`,
which is not under `src/`; per the spec it is the "previewable" predicate
deciding whether a document is an SVG. We embed its verdict as the `isSvg`
field of the URI. -/
def isSvgUri (uri : Uri) : Bool :=
  uri.isSvg

/-- Host webview panel handle: only its display column is read by the
manager (`panel.viewColumn`). -/
structure Panel where
  viewColumn : Int
deriving DecidableEq, Repr

/-- A preview collaborator instance as seen by the manager: its JavaScript
object identity (`id`), its `source` URI and its `panel`. -/
structure Preview where
  id : Nat
  source : Uri
  panel : Panel
deriving DecidableEq, Repr

/-- Host text editor: its document URI and its view column. -/
structure TextEditor where
  documentUri : Uri
  viewColumn : Int
deriving DecidableEq, Repr

/-- The `vscode.ViewColumn.Active` sentinel (numeric value -1). -/
def ViewColumnActive : Int := -1

/-- The `vscode.ViewColumn.Beside` sentinel (numeric value -2). -/
def ViewColumnBeside : Int := -2

/-- JavaScript `Array.prototype.indexOf` over the previews array: index of
the first element with the given object identity, -1 when absent. -/
def jsIndexOf (pid : Nat) : List Preview → Int
  | [] => -1
  | q :: rest =>
    if q.id = pid then 0
    else if jsIndexOf pid rest = -1 then -1 else jsIndexOf pid rest + 1

/-- JavaScript `Array.prototype.splice(start, 1)`: a negative `start` counts
from the end of the array (clamped at 0), a too-large one is clamped to the
length; one element at the resolved position is removed, if there is one. -/
def jsSplice1 {α : Type} (l : List α) (start : Int) : List α :=
  let actualStart : Int :=
    if start < 0 then max ((l.length : Int) + start) 0 else min start (l.length : Int)
  l.take actualStart.toNat ++ l.drop (actualStart.toNat + 1)

/-- The context key `PreviewManager.svgPreviewFocusContextKey`. -/
def svgPreviewFocusContextKey : String := "svgPreviewFocus"

/-- Observable calls the manager makes into its collaborators. -/
inductive Effect where
  | update (previewId : Nat) (uri : Option Uri)
  | reveal (previewId : Nat) (column : Int)
  | setContext (key : String) (value : Bool)
  | telemetry (event : String) (autoOpen : String)
deriving DecidableEq, Repr

/-- The mutable state of a `PreviewManager` instance: the `_previews` array,
the `_activePreview` pointer, and the current value of the focus context flag
(initially false, host context keys being falsy until first set). -/
structure ManagerState where
  previews : List Preview
  activePreview : Option Preview
  focusContext : Bool
deriving DecidableEq, Repr

/-- The state of a freshly constructed manager before any auto-open check:
empty collection, no active preview, focus flag unset. -/
def initialState : ManagerState :=
  { previews := [], activePreview := none, focusContext := false }

/-- Method `setSvgPreviewFocusContext`: publishes `value` under the fixed
context key (`vscode.commands.executeCommand('setContext', key, value)`). -/
def setSvgPreviewFocusContext (s : ManagerState) (value : Bool) :
    ManagerState × List Effect :=
  ({ s with focusContext := value },
   [Effect.setContext svgPreviewFocusContextKey value])

/-- Method `onPreviewFocus`: sets `_activePreview` to the given preview and
publishes the focus flag as true. -/
def onPreviewFocus (s : ManagerState) (p : Preview) : ManagerState × List Effect :=
  setSvgPreviewFocusContext { s with activePreview := some p } true

/-- Method `onPreviewBlur`: clears `_activePreview` and publishes the focus
flag as false. -/
def onPreviewBlur (s : ManagerState) : ManagerState × List Effect :=
  setSvgPreviewFocusContext { s with activePreview := none } false

/-- Method `registerPreview`: pushes the preview onto `_previews` and grants
it focus. The two subscriptions it makes are embedded as the event handlers
`onDisposeHandler` and `onDidChangeViewStateHandler` below. -/
def registerPreview (s : ManagerState) (p : Preview) : ManagerState × List Effect :=
  onPreviewFocus { s with previews := s.previews ++ [p] } p

/-- The closure registered with `preview.onDispose` in `registerPreview`:
calls `onPreviewBlur()` unconditionally, then
`this._previews.splice(this._previews.indexOf(preview), 1)`. -/
def onDisposeHandler (s : ManagerState) (p : Preview) : ManagerState × List Effect :=
  let r := onPreviewBlur s
  ({ r.1 with previews := jsSplice1 r.1.previews (jsIndexOf p.id r.1.previews) }, r.2)

/-- The closure registered with `preview.onDidChangeViewState` in
`registerPreview`: focus this preview when its panel reports active, blur
otherwise. -/
def onDidChangeViewStateHandler (s : ManagerState) (p : Preview)
    (panelActive : Bool) : ManagerState × List Effect :=
  if panelActive then onPreviewFocus s p else onPreviewBlur s

/-- Method `isActivePreviewUri`: true when there is an active preview and its
source `toString()` equals the given URI's. -/
def isActivePreviewUri (s : ManagerState) (uri : Uri) : Bool :=
  match s.activePreview with
  | some p => p.source.raw = uri.raw
  | none => false

/-- Method `getPreviewOnTargetColumn`: resolves the active view column from
the host's active text editor (`ViewColumn.Active` when there is none), then
searches `_previews` for a panel on the active column when the requested
column is the Active token, else for a panel on the column numerically one
greater than the active column. -/
def getPreviewOnTargetColumn (s : ManagerState) (activeTextEditor : Option TextEditor)
    (viewColumn : Int) : Option Preview :=
  let activeViewColumn : Int :=
    match activeTextEditor with
    | some e => e.viewColumn
    | none => ViewColumnActive
  if viewColumn = ViewColumnActive then
    s.previews.find? (fun p => p.panel.viewColumn = activeViewColumn)
  else
    s.previews.find? (fun p => p.panel.viewColumn = activeViewColumn + 1)

/-- Method `getPreviewOf`: first tracked preview whose source `fsPath` equals
the resource's. -/
def getPreviewOf (s : ManagerState) (resource : Uri) : Option Preview :=
  s.previews.find? (fun p => p.source.fsPath = resource.fsPath)

/-- Modelled from the spec: `Preview.create` lives in
`src/features/previewPanel.ts`, which is not under `src/`. Per the spec it
asynchronously constructs a fresh preview instance bound to `uri` whose
host-assigned panel occupies the resolved target column: the currently active
column for the Active token, else the column beside it (numerically one
greater), matching the resolution modes of `getPreviewOnTargetColumn`. The
fresh JavaScript object identity is supplied as `freshId`. -/
def previewCreate (freshId : Nat) (uri : Uri) (activeTextEditor : Option TextEditor)
    (viewColumn : Int) : Preview :=
  let activeViewColumn : Int :=
    match activeTextEditor with
    | some e => e.viewColumn
    | none => ViewColumnActive
  { id := freshId
    source := uri
    panel := { viewColumn :=
      if viewColumn = ViewColumnActive then activeViewColumn else activeViewColumn + 1 } }

/-- Method `createPreview`: awaits `Preview.create` and registers the result. -/
def createPreview (s : ManagerState) (freshId : Nat) (uri : Uri)
    (activeTextEditor : Option TextEditor) (viewColumn : Int) :
    ManagerState × Preview × List Effect :=
  let p := previewCreate freshId uri activeTextEditor viewColumn
  let r := registerPreview s p
  (r.1, p, r.2)

/-- Result of a `showPreview` call: the state afterwards, the preview
operated on, whether it was freshly created, and the emitted effects. -/
structure ShowPreviewResult where
  state : ManagerState
  preview : Preview
  created : Bool
  effects : List Effect
deriving DecidableEq, Repr

/-- Method `showPreview`: uses the preview found on the resolved target
column, or creates one; then `preview.update(uri)` and
`preview.panel.reveal(preview.panel.viewColumn)`. -/
def showPreview (s : ManagerState) (activeTextEditor : Option TextEditor)
    (freshId : Nat) (uri : Uri) (viewColumn : Int) : ShowPreviewResult :=
  match getPreviewOnTargetColumn s activeTextEditor viewColumn with
  | some p =>
    { state := s
      preview := p
      created := false
      effects := [Effect.update p.id (some uri), Effect.reveal p.id p.panel.viewColumn] }
  | none =>
    let c := createPreview s freshId uri activeTextEditor viewColumn
    { state := c.1
      preview := c.2.1
      created := true
      effects := c.2.2 ++
        [Effect.update c.2.1.id (some uri), Effect.reveal c.2.1.id c.2.1.panel.viewColumn] }

/-- Outcome of a `showSource()` call. In the source the body is
`vscode.workspace.openTextDocument(this._activePreview!.source).then(...)`:
the TypeScript non-null assertion compiles to a plain property access, so
when `_activePreview` is undefined the expression `undefined.source` throws a
synchronous TypeError inside the manager before `openTextDocument` is ever
called; otherwise the asynchronous open-document call is issued with the
active preview's source. -/
inductive ShowSourceOutcome where
  | typeError
  | openTextDocument (uri : Uri)
deriving DecidableEq, Repr

/-- Method `showSource`, see `ShowSourceOutcome`. -/
def showSource (s : ManagerState) : ShowSourceOutcome :=
  match s.activePreview with
  | some p => ShowSourceOutcome.openTextDocument p.source
  | none => ShowSourceOutcome.typeError

/-- Modelled from the spec: the constant
`TelemetryEvents.TELEMETRY_EVENT_SHOW_PREVIEW_TO_SIDE` lives in
`src/telemetry.ts`, which is not under `src/`; the spec names the auto-open
telemetry event. -/
def TELEMETRY_EVENT_SHOW_PREVIEW_TO_SIDE : String := "auto-open preview shown"

/-- Method `logAutoOpenPreviewEvent`: one telemetry event with payload
autoOpen = yes. -/
def logAutoOpenPreviewEvent : Effect :=
  Effect.telemetry TELEMETRY_EVENT_SHOW_PREVIEW_TO_SIDE "yes"

/-- Method `shouldAutoOpenPreviewForEditor`: the configuration flag
`svg.preview.autoOpen` (read fresh from the host, passed here as
`autoOpenConfig`) AND the editor's document is an SVG AND no tracked preview
for that document exists. -/
def shouldAutoOpenPreviewForEditor (s : ManagerState) (autoOpenConfig : Bool)
    (editor : TextEditor) : Bool :=
  autoOpenConfig && isSvgUri editor.documentUri &&
    (getPreviewOf s editor.documentUri).isNone

/-- Handler `onDidChangeTextDocument`: find the tracked preview of the
changed document and, when found, call `update()` on it with no URI. -/
def onDidChangeTextDocument (s : ManagerState) (docUri : Uri) :
    ManagerState × List Effect :=
  match getPreviewOf s docUri with
  | some p => (s, [Effect.update p.id none])
  | none => (s, [])

/-- Handler `onDidChangeActiveTextEditor`: no-op when the editor is
undefined; otherwise, when the editor's document is an SVG whose URI is not
the active preview's source, every tracked preview gets `update` with that
URI; then, independently, when the auto-open conditions hold, one telemetry
event is logged and `showPreview(uri, ViewColumn.Beside)` runs. -/
def onDidChangeActiveTextEditor (s : ManagerState) (autoOpenConfig : Bool)
    (freshId : Nat) (editor : Option TextEditor) : ManagerState × List Effect :=
  match editor with
  | none => (s, [])
  | some e =>
    let broadcast : List Effect :=
      if isSvgUri e.documentUri && !isActivePreviewUri s e.documentUri then
        s.previews.map (fun p => Effect.update p.id (some e.documentUri))
      else []
    if shouldAutoOpenPreviewForEditor s autoOpenConfig e then
      let r := showPreview s (some e) freshId e.documentUri ViewColumnBeside
      (r.state, broadcast ++ [logAutoOpenPreviewEvent] ++ r.effects)
    else
      (s, broadcast)

/-- The constructor body after subscribing the two host event streams: when
there is an active editor qualifying for auto-open, log one telemetry event
and show a preview beside it; otherwise the state stays initial and nothing
is emitted. -/
def constructManager (activeTextEditor : Option TextEditor) (autoOpenConfig : Bool)
    (freshId : Nat) : ManagerState × List Effect :=
  match activeTextEditor with
  | none => (initialState, [])
  | some e =>
    if shouldAutoOpenPreviewForEditor initialState autoOpenConfig e then
      let r := showPreview initialState (some e) freshId e.documentUri ViewColumnBeside
      (r.state, [logAutoOpenPreviewEvent] ++ r.effects)
    else
      (initialState, [])

/-- Events the host can deliver to the manager's preview subscriptions:
a `registerPreview` call (creation via `createPreview` or revival via
`deserializeWebviewPanel`), a panel disposal, or a panel view-state change. -/
inductive Event where
  | register (p : Preview)
  | disposeEvt (p : Preview)
  | viewState (p : Preview) (panelActive : Bool)
deriving DecidableEq, Repr

/-- State transition performed by one event. -/
def step (s : ManagerState) (e : Event) : ManagerState :=
  match e with
  | Event.register p => (registerPreview s p).1
  | Event.disposeEvt p => (onDisposeHandler s p).1
  | Event.viewState p a => (onDidChangeViewStateHandler s p a).1

/-- Environment assumption on host-delivered events: a panel fires its
disposal and view-state events only while it is live, i.e. between its
registration and its (single) disposal, hence only while it is a member of
`_previews`. Registration itself carries no precondition. -/
def validEvent (s : ManagerState) (e : Event) : Prop :=
  match e with
  | Event.register _ => True
  | Event.disposeEvt p => p ∈ s.previews
  | Event.viewState p _ => p ∈ s.previews

/-- States of the manager reachable from construction by valid events. -/
inductive Reachable : ManagerState → Prop where
  | init : Reachable initialState
  | step {s : ManagerState} {e : Event} :
      Reachable s → validEvent s e → Reachable (step s e)

/-- Concrete SVG URI used in witnesses and counterexamples. -/
def uriA : Uri := { raw := "file:///tmp/a.svg", fsPath := "/tmp/a.svg", isSvg := true }

/-- Second concrete SVG URI. -/
def uriB : Uri := { raw := "file:///tmp/b.svg", fsPath := "/tmp/b.svg", isSvg := true }

/-- Concrete preview on column 2 rendering `uriA`. -/
def previewOne : Preview := { id := 1, source := uriA, panel := { viewColumn := 2 } }

/-- Second concrete preview, on column 3, rendering `uriB`. -/
def previewTwo : Preview := { id := 2, source := uriB, panel := { viewColumn := 3 } }

/-- Third concrete preview: same source URI as `previewOne`, later identity. -/
def previewOneBis : Preview := { id := 3, source := uriA, panel := { viewColumn := 3 } }

/-- Helper: `indexOf` misses when no element has the identity. -/
theorem jsIndexOf_eq_neg_one (pid : Nat) (l : List Preview)
    (h : ∀ q ∈ l, q.id ≠ pid) : jsIndexOf pid l = -1 := by
  induction l with
  | nil => rfl
  | cons q rest ih =>
    have hq : ¬q.id = pid := h q (List.mem_cons_self _ _)
    have hrest : jsIndexOf pid rest = -1 :=
      ih (fun r hr => h r (List.mem_cons_of_mem _ hr))
    simp [jsIndexOf, hq, hrest]

/-- Helper: `indexOf` finds the first element with the identity. -/
theorem jsIndexOf_append (pid : Nat) (l1 l2 : List Preview) (p' : Preview)
    (hp' : p'.id = pid) (h1 : ∀ q ∈ l1, q.id ≠ pid) :
    jsIndexOf pid (l1 ++ p' :: l2) = (l1.length : Int) := by
  induction l1 with
  | nil => simp [jsIndexOf, hp']
  | cons q rest ih =>
    have hq : ¬q.id = pid := h1 q (List.mem_cons_self _ _)
    have hrest : jsIndexOf pid (rest ++ p' :: l2) = (rest.length : Int) :=
      ih (fun r hr => h1 r (List.mem_cons_of_mem _ hr))
    have hne : ¬jsIndexOf pid (rest ++ p' :: l2) = -1 := by
      rw [hrest]; omega
    have hstep : jsIndexOf pid ((q :: rest) ++ p' :: l2) =
        jsIndexOf pid (rest ++ p' :: l2) + 1 := by
      show (if q.id = pid then (0 : Int)
        else if jsIndexOf pid (rest ++ p' :: l2) = -1 then -1
        else jsIndexOf pid (rest ++ p' :: l2) + 1) = jsIndexOf pid (rest ++ p' :: l2) + 1
      rw [if_neg hq, if_neg hne]
    rw [hstep, hrest, List.length_cons]
    push_cast
    ring

/-- Helper: `splice(i, 1)` at an in-range index removes exactly that entry. -/
theorem jsSplice1_append {α : Type} (l1 l2 : List α) (x : α) :
    jsSplice1 (l1 ++ x :: l2) ((l1.length : Int)) = l1 ++ l2 := by
  simp only [jsSplice1]
  rw [if_neg (by omega)]
  have hle : (l1.length : Int) ≤ ((l1 ++ x :: l2).length : Int) := by
    simp only [List.length_append, List.length_cons]; omega
  rw [min_eq_left hle]
  have htn : ((l1.length : Int)).toNat = l1.length := Int.toNat_natCast _
  rw [htn]
  have ht : (l1 ++ x :: l2).take l1.length = l1 := List.take_left _ _
  have hd : (l1 ++ x :: l2).drop (l1.length + 1) = l2 := by
    have hsplit : l1 ++ x :: l2 = (l1 ++ [x]) ++ l2 := by simp
    have hlen : (l1 ++ [x]).length = l1.length + 1 := by simp
    rw [hsplit, List.drop_left' hlen]
  rw [ht, hd]

/-- Helper: `splice(-1, 1)`, the indexOf-miss case, drops the last element. -/
theorem jsSplice1_neg_one {α : Type} (l : List α) : jsSplice1 l (-1) = l.dropLast := by
  cases l with
  | nil => rfl
  | cons a rest =>
    simp only [jsSplice1, List.length_cons]
    rw [if_pos (by omega)]
    have hmax : max (((rest.length + 1 : Nat) : Int) + -1) 0 = (rest.length : Int) := by
      push_cast; omega
    rw [hmax, Int.toNat_natCast]
    have hd : (a :: rest).drop (rest.length + 1) = [] :=
      List.drop_of_length_le (by simp)
    rw [hd, List.append_nil, List.dropLast_eq_take]
    simp

/-- Concrete reachable state: previewOne then previewTwo registered;
previewTwo holds focus. -/
def exStateTwo : ManagerState :=
  step (step initialState (Event.register previewOne)) (Event.register previewTwo)

/-- Concrete reachable state: exStateTwo after previewOne's disposal event;
only previewTwo is tracked and nothing holds focus. -/
def exStateAfterDispose : ManagerState :=
  step exStateTwo (Event.disposeEvt previewOne)

/-- Claim C1 as stated is false: in the reachable state where previewOne and
previewTwo are tracked and previewTwo holds focus, firing previewOne's
disposal event changes the active-preview pointer (to none) and the focus
flag (to false), although previewOne did not hold focus. -/
theorem disposal_nonfocused_counterexample :
    previewOne ∈ exStateTwo.previews ∧
    exStateTwo.activePreview = some previewTwo ∧
    previewOne.id ≠ previewTwo.id ∧
    (onDisposeHandler exStateTwo previewOne).1.activePreview ≠ exStateTwo.activePreview ∧
    (onDisposeHandler exStateTwo previewOne).1.focusContext ≠ exStateTwo.focusContext := by
  decide

/-- Claim C1 (amended): firing any preview's disposal event unconditionally
clears the active-preview pointer and publishes the focus flag as false,
via onPreviewBlur, even when the disposed preview did not hold focus; the
collection then loses its first element carrying the disposed preview's
identity (removal by identity, not by URI). -/
theorem disposal_clears_focus_unconditionally (s : ManagerState) (p : Preview) :
    (onDisposeHandler s p).1.activePreview = none ∧
    (onDisposeHandler s p).1.focusContext = false ∧
    (∀ l1 p' l2, s.previews = l1 ++ p' :: l2 → p'.id = p.id →
      (∀ q ∈ l1, q.id ≠ p.id) →
      (onDisposeHandler s p).1.previews = l1 ++ l2) := by
  refine ⟨rfl, rfl, ?_⟩
  intro l1 p' l2 hsplit hid hfirst
  show jsSplice1 s.previews (jsIndexOf p.id s.previews) = l1 ++ l2
  rw [hsplit, jsIndexOf_append p.id l1 l2 p' hid hfirst, jsSplice1_append]

/-- Witness for the amended C1 theorem at the concrete two-preview state. -/
theorem disposal_clears_focus_unconditionally_witness :
    (onDisposeHandler exStateTwo previewOne).1.activePreview = none ∧
    (onDisposeHandler exStateTwo previewOne).1.previews = [previewTwo] :=
  ⟨(disposal_clears_focus_unconditionally exStateTwo previewOne).1,
   (disposal_clears_focus_unconditionally exStateTwo previewOne).2.2
     [] previewOne [previewTwo] (by decide) (by decide) (by decide)⟩

/-- Claim C4 as stated is false: after previewOne has been disposed and
removed, firing its disposal handler a second time while previewTwo is still
tracked does NOT leave the collection unchanged (indexOf returns -1 and
splice(-1, 1) removes the last element, here previewTwo). -/
theorem double_disposal_counterexample :
    previewOne ∉ exStateAfterDispose.previews ∧
    (onDisposeHandler exStateAfterDispose previewOne).1.previews ≠
      exStateAfterDispose.previews := by
  decide

/-- Claim C4 (amended): firing the disposal handler for an instance whose
identity is no longer in the collection does not crash, but it is a no-op
only on the collection when the collection is empty: it unconditionally
clears focus, and it removes the LAST element of a non-empty collection,
because indexOf returns -1 and splice(-1, 1) deletes the final entry. -/
theorem double_disposal_drops_last (s : ManagerState) (p : Preview)
    (h : ∀ q ∈ s.previews, q.id ≠ p.id) :
    (onDisposeHandler s p).1.previews = s.previews.dropLast ∧
    (onDisposeHandler s p).1.activePreview = none ∧
    (onDisposeHandler s p).1.focusContext = false := by
  refine ⟨?_, rfl, rfl⟩
  show jsSplice1 s.previews (jsIndexOf p.id s.previews) = s.previews.dropLast
  rw [jsIndexOf_eq_neg_one p.id s.previews h, jsSplice1_neg_one]

/-- Witness for the amended C4 theorem: the second disposal of previewOne
removes previewTwo, the last (and only) remaining element. -/
theorem double_disposal_drops_last_witness :
    (onDisposeHandler exStateAfterDispose previewOne).1.previews = [] :=
  (double_disposal_drops_last exStateAfterDispose previewOne (by decide)).1

/-- Concrete reachable state: only previewOne registered, holding focus. -/
def exStateOne : ManagerState := step initialState (Event.register previewOne)

/-- Claim C2: along every valid event sequence (registrations, disposals,
view-state changes) from the initial state, the active-preview pointer, when
set, refers to an element currently present in the tracked collection — no
dangling focus. -/
theorem active_preview_is_tracked (s : ManagerState) (h : Reachable s) :
    ∀ p : Preview, s.activePreview = some p → p ∈ s.previews := by
  induction h with
  | init =>
    intro p hp
    exact absurd hp (by simp [initialState])
  | @step s' e hr hv ih =>
    intro p hp
    cases e with
    | register q =>
      have hq : q = p := Option.some.inj hp
      subst hq
      show q ∈ s'.previews ++ [q]
      simp
    | disposeEvt q =>
      exact absurd hp (by
        simp [step, onDisposeHandler, onPreviewBlur, setSvgPreviewFocusContext])
    | viewState q a =>
      cases a with
      | false =>
        exact absurd hp (by
          simp [step, onDidChangeViewStateHandler, onPreviewBlur,
            setSvgPreviewFocusContext])
      | true =>
        have hq : q = p := Option.some.inj hp
        subst hq
        show q ∈ s'.previews
        exact hv

/-- Witness for the no-dangling-focus invariant at a concrete reachable
state with one registered preview. -/
theorem active_preview_is_tracked_witness :
    previewOne ∈ exStateOne.previews :=
  active_preview_is_tracked exStateOne
    (Reachable.step Reachable.init trivial) previewOne rfl

/-- Claim C3: in every reachable state the published focus-context flag is
true exactly when the active-preview pointer is set; both are mutated only
together, through onPreviewFocus and onPreviewBlur. -/
theorem focus_flag_iff_active (s : ManagerState) (h : Reachable s) :
    s.focusContext = s.activePreview.isSome := by
  induction h with
  | init => rfl
  | @step s' e hr hv ih =>
    cases e with
    | register q => rfl
    | disposeEvt q => rfl
    | viewState q a =>
      cases a with
      | false => rfl
      | true => rfl

/-- Witness for the focus-flag invariant at a concrete reachable state. -/
theorem focus_flag_iff_active_witness :
    exStateTwo.focusContext = exStateTwo.activePreview.isSome :=
  focus_flag_iff_active exStateTwo
    (Reachable.step (Reachable.step Reachable.init trivial) trivial)

/-- Helper: showPreview either leaves the state unchanged or performs one
registration step, so it stays within the reachable states. -/
theorem reachable_showPreview (s : ManagerState) (h : Reachable s)
    (ed : Option TextEditor) (f : Nat) (uri : Uri) (vc : Int) :
    Reachable (showPreview s ed f uri vc).state := by
  cases hfind : getPreviewOnTargetColumn s ed vc with
  | some p =>
    have hs : (showPreview s ed f uri vc).state = s := by
      unfold showPreview
      rw [hfind]
    rw [hs]
    exact h
  | none =>
    have hs : (showPreview s ed f uri vc).state =
        step s (Event.register (previewCreate f uri ed vc)) := by
      unfold showPreview
      rw [hfind]
      rfl
    rw [hs]
    exact Reachable.step h trivial

/-- Helper: the state showPreview leaves behind when nothing is found on the
target column is one registration of the freshly created preview. -/
theorem showPreview_state_of_none (s : ManagerState) (ed : Option TextEditor)
    (f : Nat) (uri : Uri) (vc : Int)
    (hfind : getPreviewOnTargetColumn s ed vc = none) :
    (showPreview s ed f uri vc).state =
      step s (Event.register (previewCreate f uri ed vc)) := by
  unfold showPreview
  rw [hfind]
  rfl

/-- Helper: the document-changed handler never mutates the state. -/
theorem onDidChangeTextDocument_state (s : ManagerState) (docUri : Uri) :
    (onDidChangeTextDocument s docUri).1 = s := by
  unfold onDidChangeTextDocument
  cases getPreviewOf s docUri <;> rfl

/-- Helper: the active-editor-changed handler stays within the reachable
states (its only mutation is the registration inside showPreview). -/
theorem reachable_onDidChangeActiveTextEditor (s : ManagerState) (h : Reachable s)
    (cfg : Bool) (f : Nat) (ed : Option TextEditor) :
    Reachable (onDidChangeActiveTextEditor s cfg f ed).1 := by
  cases ed with
  | none => exact h
  | some e =>
    by_cases hcond : shouldAutoOpenPreviewForEditor s cfg e = true
    · have hs : (onDidChangeActiveTextEditor s cfg f (some e)).1 =
          (showPreview s (some e) f e.documentUri ViewColumnBeside).state := by
        simp [onDidChangeActiveTextEditor, hcond]
      rw [hs]
      exact reachable_showPreview s h (some e) f e.documentUri ViewColumnBeside
    · have hs : (onDidChangeActiveTextEditor s cfg f (some e)).1 = s := by
        simp [onDidChangeActiveTextEditor, hcond]
      rw [hs]
      exact h

/-- Helper: construction reaches only reachable states. -/
theorem reachable_constructManager (ed : Option TextEditor) (cfg : Bool) (f : Nat) :
    Reachable (constructManager ed cfg f).1 := by
  cases ed with
  | none => exact Reachable.init
  | some e =>
    by_cases hcond : shouldAutoOpenPreviewForEditor initialState cfg e = true
    · have hs : (constructManager (some e) cfg f).1 =
          (showPreview initialState (some e) f e.documentUri ViewColumnBeside).state := by
        simp [constructManager, hcond]
      rw [hs]
      exact reachable_showPreview initialState Reachable.init (some e) f
        e.documentUri ViewColumnBeside
    · have hs : (constructManager (some e) cfg f).1 = initialState := by
        simp [constructManager, hcond]
      rw [hs]
      exact Reachable.init

/-- The single column that `getPreviewOnTargetColumn` searches: the active
editor's column for the Active token, else that column plus one. -/
def resolvedTargetColumn (activeTextEditor : Option TextEditor) (viewColumn : Int) : Int :=
  let activeViewColumn : Int :=
    match activeTextEditor with
    | some e => e.viewColumn
    | none => ViewColumnActive
  if viewColumn = ViewColumnActive then activeViewColumn else activeViewColumn + 1

/-- Helper: the target-column search is a single find? over the resolved
column. -/
theorem getPreviewOnTargetColumn_eq_find (s : ManagerState)
    (ed : Option TextEditor) (vc : Int) :
    getPreviewOnTargetColumn s ed vc =
      s.previews.find? (fun p => p.panel.viewColumn = resolvedTargetColumn ed vc) := by
  unfold getPreviewOnTargetColumn resolvedTargetColumn
  by_cases h : vc = ViewColumnActive <;> simp [h]

/-- Helper: a freshly created preview's panel occupies the resolved target
column. -/
theorem previewCreate_panel (f : Nat) (uri : Uri) (ed : Option TextEditor) (vc : Int) :
    (previewCreate f uri ed vc).panel.viewColumn = resolvedTargetColumn ed vc := rfl

/-- Helper: showPreview when a preview is found on the target column. -/
theorem showPreview_found (s : ManagerState) (ed : Option TextEditor) (f : Nat)
    (uri : Uri) (vc : Int) (p : Preview)
    (hfind : getPreviewOnTargetColumn s ed vc = some p) :
    showPreview s ed f uri vc =
      { state := s
        preview := p
        created := false
        effects := [Effect.update p.id (some uri), Effect.reveal p.id p.panel.viewColumn] } := by
  unfold showPreview
  rw [hfind]

/-- Helper: showPreview when nothing is on the target column creates and
registers a fresh preview, then updates and reveals it. -/
theorem showPreview_notFound (s : ManagerState) (ed : Option TextEditor) (f : Nat)
    (uri : Uri) (vc : Int)
    (hfind : getPreviewOnTargetColumn s ed vc = none) :
    showPreview s ed f uri vc =
      { state := step s (Event.register (previewCreate f uri ed vc))
        preview := previewCreate f uri ed vc
        created := true
        effects :=
          [Effect.setContext svgPreviewFocusContextKey true,
           Effect.update (previewCreate f uri ed vc).id (some uri),
           Effect.reveal (previewCreate f uri ed vc).id
             (previewCreate f uri ed vc).panel.viewColumn] } := by
  unfold showPreview
  rw [hfind]
  rfl

/-- Claim C5: showPreview operates on the existing preview found on the
resolved target column when one exists (its panel occupies the active
editor's column for the Active token, else the column numerically one
greater) and creates nothing; when none exists it creates and appends a
fresh preview; consequently two successive showPreview calls for the same
target column, with the active editor unchanged, operate on the same
preview instance the second time with no duplicate creation. -/
theorem showPreview_reuses_target_column (s : ManagerState)
    (ed : Option TextEditor) (f f' : Nat) (uri uri' : Uri) (vc : Int) :
    (∀ p, getPreviewOnTargetColumn s ed vc = some p →
      (showPreview s ed f uri vc).preview = p ∧
      (showPreview s ed f uri vc).created = false ∧
      (showPreview s ed f uri vc).state = s) ∧
    (∀ e p, ed = some e → getPreviewOnTargetColumn s ed vc = some p →
      p ∈ s.previews ∧
      p.panel.viewColumn =
        (if vc = ViewColumnActive then e.viewColumn else e.viewColumn + 1)) ∧
    (getPreviewOnTargetColumn s ed vc = none →
      (showPreview s ed f uri vc).created = true ∧
      (showPreview s ed f uri vc).state.previews =
        s.previews ++ [(showPreview s ed f uri vc).preview]) ∧
    ((showPreview (showPreview s ed f uri vc).state ed f' uri' vc).preview =
        (showPreview s ed f uri vc).preview ∧
      (showPreview (showPreview s ed f uri vc).state ed f' uri' vc).created = false) := by
  refine ⟨?_, ?_, ?_, ?_⟩
  · intro p hp
    rw [showPreview_found s ed f uri vc p hp]
    exact ⟨rfl, rfl, rfl⟩
  · intro e p he hp
    subst he
    rw [getPreviewOnTargetColumn_eq_find] at hp
    refine ⟨List.mem_of_find?_eq_some hp, ?_⟩
    have hpred := List.find?_some hp
    simp only [decide_eq_true_eq] at hpred
    simpa [resolvedTargetColumn] using hpred
  · intro hnone
    rw [showPreview_notFound s ed f uri vc hnone]
    exact ⟨rfl, rfl⟩
  · cases hfind : getPreviewOnTargetColumn s ed vc with
    | some p =>
      rw [showPreview_found s ed f uri vc p hfind,
        showPreview_found s ed f' uri' vc p hfind]
      exact ⟨rfl, rfl⟩
    | none =>
      rw [showPreview_notFound s ed f uri vc hfind]
      have hfind2 : getPreviewOnTargetColumn
          (step s (Event.register (previewCreate f uri ed vc))) ed vc =
          some (previewCreate f uri ed vc) := by
        rw [getPreviewOnTargetColumn_eq_find]
        have hprev : (step s (Event.register (previewCreate f uri ed vc))).previews =
            s.previews ++ [previewCreate f uri ed vc] := rfl
        rw [hprev, List.find?_append]
        have h1 : s.previews.find?
            (fun p => p.panel.viewColumn = resolvedTargetColumn ed vc) = none := by
          rw [← getPreviewOnTargetColumn_eq_find]
          exact hfind
        have h2 : [previewCreate f uri ed vc].find?
            (fun p => p.panel.viewColumn = resolvedTargetColumn ed vc) =
            some (previewCreate f uri ed vc) := by
          simp [previewCreate_panel]
        rw [h1, h2]
        rfl
      rw [showPreview_found _ ed f' uri' vc _ hfind2]
      exact ⟨rfl, rfl⟩

/-- Concrete editor on column 2 looking at uriA. -/
def edOnTwo : TextEditor := { documentUri := uriA, viewColumn := 2 }

/-- Witness for the C5 theorem: with previewTwo tracked on column 3 and the
active editor on column 2, a Beside request finds previewTwo and creates
nothing. -/
theorem showPreview_reuses_target_column_witness :
    (showPreview exStateAfterDispose (some edOnTwo) 9 uriA ViewColumnBeside).preview =
      previewTwo ∧
    (showPreview exStateAfterDispose (some edOnTwo) 9 uriA ViewColumnBeside).created =
      false := by
  have h := (showPreview_reuses_target_column exStateAfterDispose (some edOnTwo)
    9 9 uriA uriA ViewColumnBeside).1 previewTwo (by decide)
  exact ⟨h.1, h.2.1⟩

/-- Claim C6: the active-editor-changed handler is a no-op for an undefined
editor; when the editor's document URI is an SVG and is not the active
preview's source, every preview in the tracked collection receives an
update call carrying that document's URI (a broadcast, not restricted to
same-source previews). -/
theorem editor_change_broadcasts_updates (s : ManagerState) (cfg : Bool) (f : Nat) :
    onDidChangeActiveTextEditor s cfg f none = (s, []) ∧
    (∀ e : TextEditor, isSvgUri e.documentUri = true →
      isActivePreviewUri s e.documentUri = false →
      ∀ p ∈ s.previews,
        Effect.update p.id (some e.documentUri) ∈
          (onDidChangeActiveTextEditor s cfg f (some e)).2) := by
  refine ⟨rfl, ?_⟩
  intro e hsvg hnotactive p hp
  have hmem : Effect.update p.id (some e.documentUri) ∈
      s.previews.map (fun q => Effect.update q.id (some e.documentUri)) :=
    List.mem_map_of_mem _ hp
  by_cases hauto : shouldAutoOpenPreviewForEditor s cfg e = true
  · have heq : (onDidChangeActiveTextEditor s cfg f (some e)).2 =
        s.previews.map (fun q => Effect.update q.id (some e.documentUri)) ++
          [logAutoOpenPreviewEvent] ++
          (showPreview s (some e) f e.documentUri ViewColumnBeside).effects := by
      simp [onDidChangeActiveTextEditor, hauto, hsvg, hnotactive]
    rw [heq]
    exact List.mem_append_left _ (List.mem_append_left _ hmem)
  · have heq : (onDidChangeActiveTextEditor s cfg f (some e)).2 =
        s.previews.map (fun q => Effect.update q.id (some e.documentUri)) := by
      simp [onDidChangeActiveTextEditor, hauto, hsvg, hnotactive]
    rw [heq]
    exact hmem

/-- Witness for the C6 theorem: with previewOne and previewTwo tracked and
previewTwo (source uriB) active, an editor change to uriA sends previewOne
an update carrying uriA. -/
theorem editor_change_broadcasts_updates_witness :
    Effect.update previewOne.id (some uriA) ∈
      (onDidChangeActiveTextEditor exStateTwo false 9 (some edOnTwo)).2 :=
  (editor_change_broadcasts_updates exStateTwo false 9).2 edOnTwo
    (by decide) (by decide) previewOne (by decide)

/-- Claim C7: the document-changed handler updates, with no explicit URI,
exactly the tracked preview found for the changed document by path
equality, and is a no-op raising nothing when no tracked preview matches. -/
theorem document_change_updates_matching (s : ManagerState) (docUri : Uri) :
    (∀ p, getPreviewOf s docUri = some p →
      onDidChangeTextDocument s docUri = (s, [Effect.update p.id none]) ∧
      p ∈ s.previews ∧ p.source.fsPath = docUri.fsPath) ∧
    (getPreviewOf s docUri = none →
      onDidChangeTextDocument s docUri = (s, [])) := by
  constructor
  · intro p hp
    have hp' : s.previews.find? (fun q => q.source.fsPath = docUri.fsPath) = some p := hp
    refine ⟨?_, List.mem_of_find?_eq_some hp', ?_⟩
    · unfold onDidChangeTextDocument
      rw [hp]
    · have hpred := List.find?_some hp'
      simpa using hpred
  · intro h
    unfold onDidChangeTextDocument
    rw [h]

/-- Witness for the C7 theorem: with previewOne (source uriA) tracked, a
change to uriA updates previewOne with no URI. -/
theorem document_change_updates_matching_witness :
    onDidChangeTextDocument exStateTwo uriA =
      (exStateTwo, [Effect.update previewOne.id none]) :=
  ((document_change_updates_matching exStateTwo uriA).1 previewOne (by decide)).1

/-- Claim C10: when the changed document's path matches the source of more
than one tracked preview, only the first match in registration order
receives the update call; a later matching preview receives none. -/
theorem document_change_updates_first_match_only (s : ManagerState) (docUri : Uri)
    (p q : Preview) (hp : getPreviewOf s docUri = some p)
    (hq : q ∈ s.previews) (hqm : q.source.fsPath = docUri.fsPath)
    (hne : q.id ≠ p.id) :
    (onDidChangeTextDocument s docUri).2 = [Effect.update p.id none] ∧
    Effect.update q.id none ∉ (onDidChangeTextDocument s docUri).2 ∧
    ∃ l1 l2, s.previews = l1 ++ p :: l2 ∧ q ∈ l2 := by
  have heff : (onDidChangeTextDocument s docUri).2 = [Effect.update p.id none] := by
    unfold onDidChangeTextDocument
    rw [hp]
  refine ⟨heff, ?_, ?_⟩
  · rw [heff]
    simp [hne]
  · have hp' : s.previews.find? (fun r => r.source.fsPath = docUri.fsPath) = some p := hp
    rw [List.find?_eq_some] at hp'
    obtain ⟨-, l1, l2, hsplit, hfail⟩ := hp'
    refine ⟨l1, l2, hsplit, ?_⟩
    have hq' : q ∈ l1 ++ p :: l2 := hsplit ▸ hq
    rcases List.mem_append.mp hq' with hql | hqr
    · exact absurd hqm (by simpa using hfail q hql)
    · rcases List.mem_cons.mp hqr with hqp | hql2
      · exact absurd (congrArg Preview.id hqp) hne
      · exact hql2

/-- Concrete state: previewOne and previewOneBis registered, both rendering
uriA. -/
def exStateSameSource : ManagerState :=
  step (step initialState (Event.register previewOne)) (Event.register previewOneBis)

/-- Witness for the C10 theorem: with two tracked previews of uriA, only the
first-registered one is updated on a change to uriA. -/
theorem document_change_updates_first_match_only_witness :
    (onDidChangeTextDocument exStateSameSource uriA).2 =
      [Effect.update previewOne.id none] ∧
    Effect.update previewOneBis.id none ∉
      (onDidChangeTextDocument exStateSameSource uriA).2 := by
  have h := document_change_updates_first_match_only exStateSameSource uriA
    previewOne previewOneBis (by decide) (by decide) (by decide) (by decide)
  exact ⟨h.1, h.2.1⟩

/-- Claim C8 as stated is false: with no active preview, showSource ends in
a synchronous TypeError thrown by the manager itself (the dereference of the
undefined active-preview pointer behind the non-null assertion); the
downstream open-document call, and hence its rejected promise, never
happens. -/
theorem showSource_no_active_counterexample :
    showSource initialState = ShowSourceOutcome.typeError := rfl

/-- Claim C8 (amended): calling showSource while no preview is active throws
a synchronous TypeError from the manager itself and never reaches the
downstream open-document call; when a preview is active, the asynchronous
open-document call is issued with that preview's source, with no local
guard in either case. -/
theorem showSource_outcomes (s : ManagerState) :
    (s.activePreview = none → showSource s = ShowSourceOutcome.typeError) ∧
    (∀ p, s.activePreview = some p →
      showSource s = ShowSourceOutcome.openTextDocument p.source) := by
  constructor
  · intro h
    unfold showSource
    rw [h]
  · intro p h
    unfold showSource
    rw [h]

/-- Witness for the amended C8 theorem at the initial state and at a state
with previewTwo active. -/
theorem showSource_outcomes_witness :
    showSource initialState = ShowSourceOutcome.typeError ∧
    showSource exStateTwo = ShowSourceOutcome.openTextDocument previewTwo.source :=
  ⟨(showSource_outcomes initialState).1 rfl,
   (showSource_outcomes exStateTwo).2 previewTwo rfl⟩

/-- Number of telemetry events in an effect list. -/
def telemetryCount (es : List Effect) : Nat :=
  (es.filter (fun ef => match ef with
    | Effect.telemetry _ _ => true
    | _ => false)).length

/-- Claim C9: at construction an automatic preview is triggered exactly when
an active editor exists and the auto-open conjunction holds (configuration
flag set AND document previewable AND no tracked preview for it, the last
conjunct being vacuously true on the empty initial collection); a qualifying
auto-open registers exactly one preview and emits exactly one telemetry
event, named by TELEMETRY_EVENT_SHOW_PREVIEW_TO_SIDE with payload autoOpen
= yes and logged before the preview is shown; with no active editor, or a
failing conjunction, nothing is created and nothing is emitted. -/
theorem constructor_auto_open (cfg : Bool) (f : Nat) :
    constructManager none cfg f = (initialState, []) ∧
    (∀ e : TextEditor, cfg = true → isSvgUri e.documentUri = true →
      (getPreviewOf initialState e.documentUri).isNone = true ∧
      (constructManager (some e) cfg f).1.previews =
        [previewCreate f e.documentUri (some e) ViewColumnBeside] ∧
      (constructManager (some e) cfg f).2.head? =
        some (Effect.telemetry TELEMETRY_EVENT_SHOW_PREVIEW_TO_SIDE "yes") ∧
      telemetryCount (constructManager (some e) cfg f).2 = 1) ∧
    (∀ e : TextEditor, (cfg = false ∨ isSvgUri e.documentUri = false) →
      constructManager (some e) cfg f = (initialState, [])) := by
  refine ⟨rfl, ?_, ?_⟩
  · intro e hcfg hsvg
    subst hcfg
    have hauto : shouldAutoOpenPreviewForEditor initialState true e = true := by
      simp [shouldAutoOpenPreviewForEditor, getPreviewOf, initialState, hsvg]
    have hfind : getPreviewOnTargetColumn initialState (some e) ViewColumnBeside = none := by
      simp [getPreviewOnTargetColumn, initialState, ViewColumnBeside, ViewColumnActive]
    have hconstr : constructManager (some e) true f =
        ((showPreview initialState (some e) f e.documentUri ViewColumnBeside).state,
          [logAutoOpenPreviewEvent] ++
            (showPreview initialState (some e) f e.documentUri ViewColumnBeside).effects) := by
      simp [constructManager, hauto]
    rw [showPreview_notFound initialState (some e) f e.documentUri ViewColumnBeside hfind]
      at hconstr
    rw [hconstr]
    exact ⟨rfl, rfl, rfl, rfl⟩
  · intro e hfail
    have hauto : ¬shouldAutoOpenPreviewForEditor initialState cfg e = true := by
      rcases hfail with hcfg | hsvg
      · subst hcfg
        simp [shouldAutoOpenPreviewForEditor]
      · simp [shouldAutoOpenPreviewForEditor, hsvg]
    simp [constructManager, hauto]

/-- Witness for the C9 theorem: with auto-open enabled and an active editor
on uriA (an SVG), construction registers one preview and emits exactly one
telemetry event; with the flag off, nothing happens. -/
theorem constructor_auto_open_witness :
    (constructManager (some edOnTwo) true 7).1.previews =
      [previewCreate 7 uriA (some edOnTwo) ViewColumnBeside] ∧
    telemetryCount (constructManager (some edOnTwo) true 7).2 = 1 ∧
    constructManager (some edOnTwo) false 7 = (initialState, []) := by
  have h := (constructor_auto_open true 7).2.1 edOnTwo rfl (by decide)
  have h2 := (constructor_auto_open false 7).2.2 edOnTwo (Or.inl rfl)
  exact ⟨h.2.1, h.2.2.2, h2⟩
